import Mathlib

/-!
Shallow embedding of the near-mezze/NFT contracts.

Two source files are embedded:
* `src/unnamed/part_000` — the NEP-141 fungible-token contract
  (`ft_transfer`, `ft_transfer_call`, `ft_balance_of`, `ft_resolve_transfer`,
  `ft_total_supply`).
* `src/src/nep141-basic/assembly/index_old.ts` — the NFT registry
  (`grant_access`, `revoke_access`, `transfer_from`, `check_access`,
  `get_token_owner`, `mint_to`) with its `models` constants
  (`MAX_SUPPLY = u64(10)`, `TOTAL_SUPPLY = 'c'`, `EXPECTED_DEPOSIT = toYocto(1)`).

Persistent maps are embedded as functions to `Option`, `storage` slots as
`Option` fields, `u128`/`u64` values as `Nat` (with an explicit modulus
where the source's unsigned addition could wrap), and an `assert` failure
as `Except.error`: a failed assert aborts the whole invocation, so an
erroring operation returns no state and all writes are discarded.
The caller identity (`context.predecessor` / `Context.sender`) and the
attached deposit (`context.attachedDeposit()`) are passed as explicit
arguments.
-/

namespace NFT

/-- The error constants of `models` (`ERROR_*` strings), one constructor per
distinct failure the embedded operations can report. `callerIdMismatch` is
`ERROR_CALLER_ID_DOES_NOT_MATCH_EXPECTATION`, `callerNotOwner` is
`ERROR_TOKEN_NOT_OWNED_BY_CALLER`, `unknownToken` is the trap of
`PersistentMap.getSome` on a missing key. -/
inductive ContractError where
  | unknownToken
  | ownerMismatch
  | callerIdMismatch
  | callerNotOwner
  | capacityExceeded
  | insufficientFunds
  | depositMismatch
  deriving DecidableEq, Repr

/-- `models.ts`: `export const MAX_SUPPLY = u64(10)`. -/
def MAX_SUPPLY : Nat := 10

/-- `models.ts`: `export const EXPECTED_DEPOSIT = toYocto(1)`, i.e. one NEAR
in yoctoNEAR. -/
def EXPECTED_DEPOSIT : Nat := 10 ^ 24

/-- Modulus of the source's `u128` balance arithmetic. -/
def U128_MOD : Nat := 2 ^ 128

/-- State of the fungible-token contract of `part_000`: the single
`balances` persistent map (prefix `b`), account id to stored `u128` amount;
`none` means no record. -/
structure FtState where
  balances : String → Option Nat

/-- The empty fungible-token ledger. -/
def ftEmpty : FtState := { balances := fun _ => none }

/-- `part_000` `ft_transfer`: asserts the attached deposit equals
`EXPECTED_DEPOSIT`, asserts `senderBalance > amount` (the source's check is
strict, not `>=`), then reads the receiver balance (before any write),
writes `senderBalance - amount` for the caller and
`receiverBalance + amount` for the receiver, in that order.  The receiver
balance is read from the pre-state, so when `receiver_id` equals the
caller the second write overwrites the debit. -/
def ft_transfer (s : FtState) (caller : String) (deposit : Nat)
    (receiver_id : String) (amount : Nat) (memo : Option String) :
    Except ContractError FtState :=
  if deposit = EXPECTED_DEPOSIT then
    let senderBalance := (s.balances caller).getD 0
    if amount < senderBalance then
      let receiverBalance := (s.balances receiver_id).getD 0
      let afterDebit : String → Option Nat :=
        fun a => if a = caller then some (senderBalance - amount) else s.balances a
      let afterCredit : String → Option Nat :=
        fun a => if a = receiver_id then some ((receiverBalance + amount) % U128_MOD)
                 else afterDebit a
      Except.ok { balances := afterCredit }
    else Except.error ContractError.insufficientFunds
  else Except.error ContractError.depositMismatch

/-- `part_000` `ft_transfer_call`: its body is exactly the body of
`ft_transfer` (same deposit assert, same strict balance assert, same two
writes); it creates no pending-transfer record and schedules no external
call — the function ends after the second write. -/
def ft_transfer_call (s : FtState) (caller : String) (deposit : Nat)
    (receiver_id : String) (amount : Nat) (memo : Option String)
    (msg : String) : Except ContractError FtState :=
  if deposit = EXPECTED_DEPOSIT then
    let senderBalance := (s.balances caller).getD 0
    if amount < senderBalance then
      let receiverBalance := (s.balances receiver_id).getD 0
      let afterDebit : String → Option Nat :=
        fun a => if a = caller then some (senderBalance - amount) else s.balances a
      let afterCredit : String → Option Nat :=
        fun a => if a = receiver_id then some ((receiverBalance + amount) % U128_MOD)
                 else afterDebit a
      Except.ok { balances := afterCredit }
    else Except.error ContractError.insufficientFunds
  else Except.error ContractError.depositMismatch

/-- `part_000` `ft_balance_of`: `return balances.get(account_id)` — the
map read carries no default value, so a missing record yields the map's
null, not the amount zero. -/
def ft_balance_of (s : FtState) (account_id : String) : Option Nat :=
  s.balances account_id

/-- `part_000` `ft_total_supply`: `return MAX_SUPPLY`. -/
def ft_total_supply : Nat := MAX_SUPPLY

/-- `part_000` `ft_resolve_transfer`: its whole body is
`assert(context.predecessor === sender_id, ERROR_CALLER_ID_DOES_NOT_MATCH_EXPECTATION)`
— the caller is compared against the `sender_id` argument, not against the
contract's own account, and after the assert the function does nothing:
no balance is read or written and no kept-amount is computed. -/
def ft_resolve_transfer (s : FtState) (caller : String)
    (sender_id receiver_id : String) (amount : Nat) :
    Except ContractError FtState :=
  if caller = sender_id then Except.ok s
  else Except.error ContractError.callerIdMismatch

/-- Balance of an account in the state an operation returned, defaulting a
missing record to zero; errors pass through. -/
def resultBalance (r : Except ContractError FtState) (a : String) :
    Except ContractError Nat :=
  r.map fun s => (s.balances a).getD 0

/-- A ledger holding a single record: alice with balance 100. -/
def ftAlice100 : FtState :=
  { balances := fun a => if a = "alice" then some 100 else none }

/-- The ledger after an optimistic 100-token move from alice to bob:
alice 0, bob 100. -/
def ftPostCall : FtState :=
  { balances := fun a =>
      if a = "alice" then some 0 else if a = "bob" then some 100 else none }

/-- State of the NFT registry of `index_old.ts`: the `tokenToOwner`
persistent map (prefix `a`), the `escrowAccess` persistent map (prefix `b`,
at most one delegate per account), and the `TOTAL_SUPPLY` storage slot
(key `c`, a `u64`; `none` when the slot was never written, in which case
`storage.getPrimitive(TOTAL_SUPPLY, 1)` yields the default 1). -/
structure NftState where
  tokenToOwner : Nat → Option String
  escrowAccess : String → Option String
  supplyCounter : Option Nat

/-- The registry at deployment: no tokens, no escrows, supply slot unset. -/
def nftEmpty : NftState :=
  { tokenToOwner := fun _ => none
    escrowAccess := fun _ => none
    supplyCounter := none }

/-- Overwrite the ownership record of one token
(`tokenToOwner.set(token_id, ...)`). -/
def setOwner (s : NftState) (token_id : Nat) (a : String) : NftState :=
  { s with tokenToOwner := fun t => if t = token_id then some a else s.tokenToOwner t }

/-- `index_old.ts` `grant_access`: `escrowAccess.set(context.predecessor,
escrow_account_id)` — overwrites any prior delegate of the caller. -/
def grant_access (s : NftState) (caller escrow_account_id : String) : NftState :=
  { s with escrowAccess :=
      fun a => if a = caller then some escrow_account_id else s.escrowAccess a }

/-- `index_old.ts` `revoke_access`: `escrowAccess.delete(context.predecessor)`
— the `escrow_account_id` argument is never read; the caller's escrow record
is deleted whatever it held, and deleting a missing record is not an error
(the function is total and never asserts). -/
def revoke_access (s : NftState) (caller escrow_account_id : String) : NftState :=
  { s with escrowAccess :=
      fun a => if a = caller then none else s.escrowAccess a }

/-- `index_old.ts` `get_token_owner`: `tokenToOwner.getSome(token_id)` —
traps on a missing record. -/
def get_token_owner (s : NftState) (token_id : Nat) : Except ContractError String :=
  match s.tokenToOwner token_id with
  | some owner => Except.ok owner
  | none => Except.error ContractError.unknownToken

/-- `index_old.ts` `check_access`: asserts `caller != account_id`, returns
`false` when `account_id` has no escrow record, else compares the recorded
delegate with the caller. -/
def check_access (s : NftState) (caller account_id : String) :
    Except ContractError Bool :=
  if caller = account_id then Except.error ContractError.callerIdMismatch
  else
    match s.escrowAccess account_id with
    | none => Except.ok false
    | some escrow => Except.ok (escrow == caller)

/-- `index_old.ts` `transfer_from`: fetches the owner with `getSome`
(trapping on an unminted token), asserts `owner == owner_id`
(`ERROR_OWNER_ID_DOES_NOT_MATCH_EXPECTATION`), reads the owner's escrow
record (null when absent), asserts
`[owner, escrow].includes(predecessor)`
(`ERROR_CALLER_ID_DOES_NOT_MATCH_EXPECTATION`), and overwrites the
ownership record with `new_owner_id`. -/
def transfer_from (s : NftState) (caller owner_id new_owner_id : String)
    (token_id : Nat) : Except ContractError NftState :=
  match s.tokenToOwner token_id with
  | none => Except.error ContractError.unknownToken
  | some owner =>
    if owner = owner_id then
      if caller = owner ∨ s.escrowAccess owner = some caller then
        Except.ok (setOwner s token_id new_owner_id)
      else Except.error ContractError.callerIdMismatch
    else Except.error ContractError.ownerMismatch

/-- Modelled from the spec: the direct `transfer(new_owner_id, token_id)`
entry point is missing from src — only its unit tests and the error
constant `ERROR_TOKEN_NOT_OWNED_BY_CALLER` appear there.  Per the spec it
is the owner-only path: it requires `caller == get_token_owner(token_id)`
directly, rejecting even an authorized delegate with `CallerNotOwner`, and
on success overwrites the ownership record with `new_owner_id`. -/
def transfer (s : NftState) (caller new_owner_id : String) (token_id : Nat) :
    Except ContractError NftState :=
  match s.tokenToOwner token_id with
  | none => Except.error ContractError.unknownToken
  | some owner =>
    if caller = owner then Except.ok (setOwner s token_id new_owner_id)
    else Except.error ContractError.callerNotOwner

/-- `index_old.ts` `mint_to`: fetches
`currentSupply = storage.getPrimitive<u64>(TOTAL_SUPPLY, 1)`, asserts
`currentSupply <= MAX_SUPPLY` (`ERROR_MAXIMUM_TOKEN_LIMIT_REACHED`), sets
`tokenToOwner[tokenId] = owner_id`, stores `tokenId + 1` into
`TOTAL_SUPPLY`, and returns `tokenId`.  The source line `const tokenId`
carries no initializer; the counter update `storage.set(TOTAL_SUPPLY,
tokenId + 1)` together with the function's own comment ("a simple indexing
strategy that matches IDs to current supply, defaulting the first token to
ID=1") fixes `tokenId` as the fetched counter value, which is what is
embedded here. -/
def mint_to (s : NftState) (owner_id : String) :
    Except ContractError (Nat × NftState) :=
  let tokenId := s.supplyCounter.getD 1
  let currentSupply := s.supplyCounter.getD 1
  if currentSupply ≤ MAX_SUPPLY then
    Except.ok (tokenId,
      { s with
          tokenToOwner := fun t => if t = tokenId then some owner_id else s.tokenToOwner t
          supplyCounter := some (tokenId + 1) })
  else Except.error ContractError.capacityExceeded

/-- Run `mint_to` once per listed owner, threading the state and collecting
the returned token identifiers; the first failing mint aborts the run. -/
def mintList : NftState → List String → Except ContractError (NftState × List Nat)
  | s, [] => Except.ok (s, [])
  | s, o :: rest =>
    match mint_to s o with
    | Except.error e => Except.error e
    | Except.ok (t, s2) =>
      match mintList s2 rest with
      | Except.error e => Except.error e
      | Except.ok (s3, ids) => Except.ok (s3, t :: ids)

/-- `[start, start+1, ..., start+len-1]`: the consecutive identifiers a run
of successful mints allocates. -/
def idsFrom : Nat → Nat → List Nat
  | _, 0 => []
  | start, len + 1 => start :: idsFrom (start + 1) len

/-- Whether an `Except` result is a success. -/
def exceptOk {α : Type} : Except ContractError α → Bool
  | Except.ok _ => true
  | Except.error _ => false

/-- A registry with token 1 owned by alice and bob as alice's delegate,
as produced by one mint and one grant. -/
def nftW : NftState :=
  { tokenToOwner := fun t => if t = 1 then some "alice" else none
    escrowAccess := fun a => if a = "alice" then some "bob" else none
    supplyCounter := some 2 }

/-- The registry after minting one token to alice and one to bob from the
empty registry (extracted from the run itself). -/
def mintResState : NftState :=
  match mintList nftEmpty ["alice", "bob"] with
  | Except.ok p => p.1
  | Except.error _ => nftEmpty

/-- Ten mint requests, enough to reach `MAX_SUPPLY`. -/
def tenAlices : List String := List.replicate 10 "alice"

/-- The registry after minting `MAX_SUPPLY` tokens from the empty registry
(extracted from the run itself). -/
def cap10State : NftState :=
  match mintList nftEmpty tenAlices with
  | Except.ok p => p.1
  | Except.error _ => nftEmpty

/-- Unfolding equation of `mintList` on a non-empty list. -/
theorem mintList_cons (s : NftState) (o : String) (rest : List String) :
    mintList s (o :: rest) =
      match mint_to s o with
      | Except.error e => Except.error e
      | Except.ok (t, s2) =>
        match mintList s2 rest with
        | Except.error e => Except.error e
        | Except.ok (s3, ids) => Except.ok (s3, t :: ids) := rfl

/-- When the supply counter reads `k + 1` and the capacity check passes,
`mint_to` returns token `k + 1`, records its owner, and advances the
counter. -/
theorem mint_to_eq_ok (s : NftState) (o : String) (k : Nat)
    (hc : s.supplyCounter.getD 1 = k + 1) (hle : k + 1 ≤ MAX_SUPPLY) :
    mint_to s o = Except.ok (k + 1,
      { s with
          tokenToOwner := fun t => if t = k + 1 then some o else s.tokenToOwner t
          supplyCounter := some (k + 1 + 1) }) := by
  simp [mint_to, hc, hle]

/-- When the supply counter reads `k + 1` and the capacity check fails,
`mint_to` errors with `capacityExceeded` and returns no state: the assert
fires before any write. -/
theorem mint_to_eq_err (s : NftState) (o : String) (k : Nat)
    (hc : s.supplyCounter.getD 1 = k + 1) (hgt : MAX_SUPPLY < k + 1) :
    mint_to s o = Except.error ContractError.capacityExceeded := by
  simp [mint_to, hc, Nat.not_le.mpr hgt]

/-- Inversion of a successful `mintList` run on a non-empty list. -/
theorem mintList_cons_inv (s : NftState) (o : String) (rest : List String)
    (s3 : NftState) (ids : List Nat)
    (h : mintList s (o :: rest) = Except.ok (s3, ids)) :
    ∃ t s2 ids2, mint_to s o = Except.ok (t, s2) ∧
      mintList s2 rest = Except.ok (s3, ids2) ∧ ids = t :: ids2 := by
  rw [mintList_cons] at h
  cases hmt : mint_to s o with
  | error e => rw [hmt] at h; cases h
  | ok p =>
    obtain ⟨t, s2⟩ := p
    rw [hmt] at h
    replace h : (match mintList s2 rest with
        | Except.error e => Except.error e
        | Except.ok (s4, ids2) => Except.ok (s4, t :: ids2)) = Except.ok (s3, ids) := h
    cases hrec : mintList s2 rest with
    | error e => rw [hrec] at h; cases h
    | ok q =>
      obtain ⟨s4, ids2⟩ := q
      rw [hrec] at h
      injection h with h1
      injection h1 with h2 h3
      exact ⟨t, s2, ids2, rfl, by rw [hrec, h2], h3.symm⟩

/-- Composition of one successful mint with a successful run of the rest. -/
theorem mintList_cons_ok (s : NftState) (o : String) (rest : List String)
    (t : Nat) (s2 s3 : NftState) (ids : List Nat)
    (hmt : mint_to s o = Except.ok (t, s2))
    (hrec : mintList s2 rest = Except.ok (s3, ids)) :
    mintList s (o :: rest) = Except.ok (s3, t :: ids) := by
  rw [mintList_cons, hmt]
  show (match mintList s2 rest with
      | Except.error e => Except.error e
      | Except.ok (s4, ids2) => Except.ok (s4, t :: ids2)) = Except.ok (s3, t :: ids)
  rw [hrec]

/-- Invariant of a successful `mintList` run started with the supply
counter reading `k + 1`: the allocated identifiers are the consecutive
block `k+1, …, k+len`; the counter ends at `k + 1 + len`; the last mint
passed the capacity check; tokens below `k + 1` are untouched; and each
minted token's recorded owner is the corresponding requested owner. -/
theorem mintList_ok_inv (owners : List String) :
    ∀ (s : NftState) (k : Nat), s.supplyCounter.getD 1 = k + 1 →
      ∀ (s3 : NftState) (ids : List Nat),
        mintList s owners = Except.ok (s3, ids) →
        ids = idsFrom (k + 1) owners.length ∧
        s3.supplyCounter.getD 1 = k + 1 + owners.length ∧
        (owners = [] ∨ k + owners.length ≤ MAX_SUPPLY) ∧
        (∀ j, j < k + 1 → s3.tokenToOwner j = s.tokenToOwner j) ∧
        (∀ i (hi : i < owners.length),
          s3.tokenToOwner (k + 1 + i) = some (owners.get ⟨i, hi⟩)) := by
  induction owners with
  | nil =>
    intro s k hc s3 ids h
    injection h with h1
    injection h1 with h2 h3
    subst h2
    refine ⟨h3.symm, by simpa using hc, Or.inl rfl, fun j hj => rfl, ?_⟩
    intro i hi
    exact absurd hi (by simp)
  | cons o rest ih =>
    intro s k hc s3 ids h
    obtain ⟨t, s2, ids2, hmt, hrec, rfl⟩ := mintList_cons_inv s o rest s3 ids h
    by_cases hle : k + 1 ≤ MAX_SUPPLY
    · rw [mint_to_eq_ok s o k hc hle] at hmt
      injection hmt with h1
      injection h1 with ht hs2
      subst ht
      subst hs2
      have hstep := ih
        (NftState.mk (fun t => if t = k + 1 then some o else s.tokenToOwner t)
          s.escrowAccess (some (k + 1 + 1)))
        (k + 1)
      obtain ⟨hids, hcnt, hbound, hlow, hidx⟩ := hstep rfl s3 ids2 hrec
      refine ⟨?_, ?_, ?_, ?_, ?_⟩
      · rw [hids]; rfl
      · rw [hcnt]; simp only [List.length_cons]; omega
      · right
        rcases hbound with h0 | hb
        · subst h0; simpa using hle
        · simp only [List.length_cons]; omega
      · intro j hj
        rw [hlow j (by omega)]
        simp [show j ≠ k + 1 by omega]
      · intro i hi
        rcases i with _ | i2
        · have h1 := hlow (k + 1) (by omega)
          rw [show k + 1 + 0 = k + 1 from rfl, h1]
          simp
        · have h1 : k + 1 + (i2 + 1) = k + 1 + 1 + i2 := by omega
          rw [h1]
          exact hidx i2 (by simpa using hi)
    · rw [mint_to_eq_err s o k hc (by omega)] at hmt
      cases hmt

/-- A run of mints whose length keeps the counter within `MAX_SUPPLY`
succeeds. -/
theorem mintList_total (owners : List String) :
    ∀ (s : NftState) (k : Nat), s.supplyCounter.getD 1 = k + 1 →
      k + owners.length ≤ MAX_SUPPLY →
      ∃ p, mintList s owners = Except.ok p := by
  induction owners with
  | nil => intro s k hc hle; exact ⟨(s, []), rfl⟩
  | cons o rest ih =>
    intro s k hc hle
    simp only [List.length_cons] at hle
    have hmt := mint_to_eq_ok s o k hc (by omega)
    have hstep := ih
      (NftState.mk (fun t => if t = k + 1 then some o else s.tokenToOwner t)
        s.escrowAccess (some (k + 1 + 1)))
      (k + 1)
    obtain ⟨⟨s3, ids⟩, hp⟩ := hstep rfl (by omega)
    exact ⟨(s3, (k + 1) :: ids), mintList_cons_ok s o rest (k + 1) _ s3 ids hmt hp⟩

/-- Claim C1, evaluated at its failing input: the sum of balances is NOT
invariant under a successful `ft_transfer` when `receiver_id` equals the
caller.  From the single-record ledger alice = 100 (sum 100), a
self-transfer of 50 with the exact deposit succeeds and leaves alice = 150
(sum 150): `ft_transfer` reads the receiver balance before writing the
debit, so the credit write overwrites the debit instead of composing with
it. -/
theorem ft_transfer_self_inflates_supply :
    (ftAlice100.balances "alice").getD 0 = 100 ∧
    resultBalance (ft_transfer ftAlice100 "alice" EXPECTED_DEPOSIT "alice" 50 none)
        "alice" = Except.ok 150 :=
  ⟨rfl, by rfl⟩

/-- Claim C2, evaluated at its failing input: scenario B cannot even start —
`ft_transfer_call(bob, 100)` from alice with balance 100 is rejected by the
strict balance check — and `ft_resolve_transfer` performs no refund at
all: run on the post-optimistic-transfer ledger alice = 0, bob = 100 it
returns the state unchanged (no clamped unused amount is credited back and
no kept amount is computed), instead of ending at alice = 20, bob = 80 or
rolling back to alice = 100, bob = 0. -/
theorem ft_resolve_transfer_performs_no_refund :
    ft_transfer_call ftAlice100 "alice" EXPECTED_DEPOSIT "bob" 100 none "take-some" =
      Except.error ContractError.insufficientFunds ∧
    ft_resolve_transfer ftPostCall "alice" "alice" "bob" 100 = Except.ok ftPostCall ∧
    (ftPostCall.balances "alice").getD 0 = 0 ∧
    (ftPostCall.balances "bob").getD 0 = 100 :=
  ⟨by rfl, rfl, rfl, rfl⟩

/-- Claim C3, evaluated at its failing input: `ft_resolve_transfer` compares
the caller against the `sender_id` argument, not against this contract's
own account.  The original sender alice invokes it successfully, while a
caller that is not the named sender — in particular the contract's own
account — is rejected.  This is the opposite of the claimed
caller-must-be-self rule. -/
theorem ft_resolve_transfer_admits_sender :
    ft_resolve_transfer ftAlice100 "alice" "alice" "bob" 100 = Except.ok ftAlice100 ∧
    ft_resolve_transfer ftAlice100 "ft.token.near" "alice" "bob" 100 =
      Except.error ContractError.callerIdMismatch :=
  ⟨by rfl, by rfl⟩

/-- Claim C4, evaluated at its failing inputs: `ft_transfer` requires the
sender balance to STRICTLY exceed the amount, so with the exact deposit
attached the boundary case `amount = balance = 100` fails with
`insufficientFunds`, and the zero-amount transfer from a zero-balance
account fails as well instead of succeeding as a no-op; a transfer of 99
against balance 100 does succeed. -/
theorem ft_transfer_rejects_boundary_amounts :
    ft_transfer ftAlice100 "alice" EXPECTED_DEPOSIT "bob" 100 none =
      Except.error ContractError.insufficientFunds ∧
    ft_transfer ftEmpty "alice" EXPECTED_DEPOSIT "bob" 0 none =
      Except.error ContractError.insufficientFunds ∧
    resultBalance (ft_transfer ftAlice100 "alice" EXPECTED_DEPOSIT "bob" 99 none)
        "bob" = Except.ok 99 :=
  ⟨by rfl, by rfl, by rfl⟩

/-- Claim C9, evaluated at its failing input: `ft_balance_of` on an account
with no balance record returns the map's null (`none`), not the amount 0 —
the source reads the map without a default value; an existing record is
returned as is. -/
theorem ft_balance_of_missing_is_null :
    ft_balance_of ftAlice100 "nobody" = none ∧
    ft_balance_of ftAlice100 "alice" = some 100 :=
  ⟨rfl, rfl⟩

/-- Claim C5: for a minted token with recorded owner `o`, `transfer_from`
fails with `ownerMismatch` when the supplied expected owner is not `o`;
with the right expected owner it fails with the caller-not-authorized
error unless the caller is `o` or the delegate currently recorded for `o`;
and for the owner or the delegate it succeeds and rewrites the ownership
record to the new owner. -/
theorem transfer_from_spec (s : NftState) (caller expected_owner new_owner : String)
    (token_id : Nat) (o : String) (hmint : s.tokenToOwner token_id = some o) :
    (expected_owner ≠ o →
      transfer_from s caller expected_owner new_owner token_id =
        Except.error ContractError.ownerMismatch) ∧
    (expected_owner = o → caller ≠ o → s.escrowAccess o ≠ some caller →
      transfer_from s caller expected_owner new_owner token_id =
        Except.error ContractError.callerIdMismatch) ∧
    (expected_owner = o → (caller = o ∨ s.escrowAccess o = some caller) →
      transfer_from s caller expected_owner new_owner token_id =
        Except.ok (setOwner s token_id new_owner) ∧
      (setOwner s token_id new_owner).tokenToOwner token_id = some new_owner) := by
  refine ⟨?_, ?_, ?_⟩
  · intro hne
    simp [transfer_from, hmint, Ne.symm hne]
  · intro heq hcaller hesc
    subst heq
    simp [transfer_from, hmint, hcaller, hesc]
  · intro heq hor
    subst heq
    refine ⟨?_, by simp [setOwner]⟩
    rcases hor with h | h
    · simp [transfer_from, hmint, h]
    · simp [transfer_from, hmint, h]

/-- Witness for C5: in the registry with token 1 owned by alice and bob
recorded as alice's delegate, bob's delegated transfer succeeds and
reassigns the token, while carol is rejected with the
caller-not-authorized error. -/
theorem transfer_from_spec_witness :
    transfer_from nftW "bob" "alice" "carol" 1 =
      Except.ok (setOwner nftW 1 "carol") ∧
    transfer_from nftW "carol" "alice" "dave" 1 =
      Except.error ContractError.callerIdMismatch :=
  ⟨((transfer_from_spec nftW "bob" "alice" "carol" 1 "alice" rfl).2.2 rfl
      (Or.inr rfl)).1,
   (transfer_from_spec nftW "carol" "alice" "dave" 1 "alice" rfl).2.1 rfl
      (by decide) (by decide)⟩

/-- Claim C6 (the `transfer` entry point is modelled from the spec, being
missing from src): the direct path succeeds exactly for the recorded
owner, and every other caller — including the owner's currently recorded
delegate — fails with `callerNotOwner`. -/
theorem transfer_requires_owner (s : NftState) (caller new_owner : String)
    (token_id : Nat) (o : String) (hmint : s.tokenToOwner token_id = some o) :
    (caller = o → transfer s caller new_owner token_id =
      Except.ok (setOwner s token_id new_owner)) ∧
    (caller ≠ o → transfer s caller new_owner token_id =
      Except.error ContractError.callerNotOwner) := by
  constructor
  · intro h; subst h; simp [transfer, hmint]
  · intro h; simp [transfer, hmint, h]

/-- Witness for C6: bob, although recorded as alice's delegate, is rejected
by the direct `transfer` path on alice's token. -/
theorem transfer_requires_owner_witness :
    nftW.escrowAccess "alice" = some "bob" ∧
    transfer nftW "bob" "carol" 1 = Except.error ContractError.callerNotOwner :=
  ⟨rfl, (transfer_requires_owner nftW "bob" "carol" 1 "alice" rfl).2 (by decide)⟩

/-- Claim C7: a run of successful `mint_to` calls from the empty registry
allocates the identifiers `1, 2, …, n` in order — each call returns
`current_total_supply + 1` — and in the resulting registry
`get_token_owner` of the i-th identifier returns the i-th requested
owner. -/
theorem mint_ids_and_owners (owners : List String) (s : NftState) (ids : List Nat)
    (h : mintList nftEmpty owners = Except.ok (s, ids)) :
    ids = idsFrom 1 owners.length ∧
    ∀ i (hi : i < owners.length),
      get_token_owner s (i + 1) = Except.ok (owners.get ⟨i, hi⟩) := by
  obtain ⟨hids, hcnt, hbound, hlow, hidx⟩ :=
    mintList_ok_inv owners nftEmpty 0 rfl s ids h
  refine ⟨hids, ?_⟩
  intro i hi
  have h1 := hidx i hi
  have h2 : 0 + 1 + i = i + 1 := by omega
  rw [h2] at h1
  simp [get_token_owner, h1]

/-- Witness for C7: minting to alice then bob yields identifiers 1 and 2,
owned by alice and bob respectively. -/
theorem mint_ids_and_owners_witness :
    get_token_owner mintResState 1 = Except.ok "alice" ∧
    get_token_owner mintResState 2 = Except.ok "bob" :=
  ⟨(mint_ids_and_owners ["alice", "bob"] mintResState [1, 2] rfl).2 0 (by decide),
   (mint_ids_and_owners ["alice", "bob"] mintResState [1, 2] rfl).2 1 (by decide)⟩

/-- Claim C8: from the empty registry every run of at most `MAX_SUPPLY`
mints succeeds, and after a successful run the next `mint_to` fails with
`capacityExceeded` exactly when the run already minted `MAX_SUPPLY`
tokens; a failing `mint_to` is an abort before any write, so the supply
counter and all other state are unchanged by the failed attempt. -/
theorem mint_to_capacity :
    (∀ owners : List String, owners.length ≤ MAX_SUPPLY →
      exceptOk (mintList nftEmpty owners) = true) ∧
    (∀ (owners : List String) (s : NftState) (ids : List Nat) (o : String),
      mintList nftEmpty owners = Except.ok (s, ids) →
      (mint_to s o = Except.error ContractError.capacityExceeded ↔
        MAX_SUPPLY ≤ owners.length)) := by
  constructor
  · intro owners hlen
    obtain ⟨p, hp⟩ := mintList_total owners nftEmpty 0 rfl (by omega)
    rw [hp]; rfl
  · intro owners s ids o h
    obtain ⟨hids, hcnt, hbound, hlow, hidx⟩ :=
      mintList_ok_inv owners nftEmpty 0 rfl s ids h
    have hc2 : s.supplyCounter.getD 1 = owners.length + 1 := by omega
    constructor
    · intro herr
      by_contra hnot
      rw [mint_to_eq_ok s o owners.length hc2 (by omega)] at herr
      cases herr
    · intro h10
      exact mint_to_eq_err s o owners.length hc2 (by omega)

/-- Witness for C8: the ten mints reaching `MAX_SUPPLY` all succeed, and
the eleventh attempt fails with `capacityExceeded`. -/
theorem mint_to_capacity_witness :
    exceptOk (mintList nftEmpty tenAlices) = true ∧
    mint_to cap10State "bob" = Except.error ContractError.capacityExceeded :=
  ⟨mint_to_capacity.1 tenAlices (by decide),
   (mint_to_capacity.2 tenAlices cap10State (idsFrom 1 10) "bob" rfl).mpr (by decide)⟩

/-- Claim C10: `revoke_access` never reads its delegate argument — two
calls by the same caller with different arguments produce identical
post-states — it removes the caller's escrow record (also when the named
delegate is not the recorded one), leaves every other account's escrow
record and the rest of the state untouched, and always succeeds (it is a
total operation with no assert, so a caller with no escrow record
succeeds too). -/
theorem revoke_access_ignores_argument (s : NftState) (caller d1 d2 : String) :
    revoke_access s caller d1 = revoke_access s caller d2 ∧
    (revoke_access s caller d1).escrowAccess caller = none ∧
    (∀ a, a ≠ caller →
      (revoke_access s caller d1).escrowAccess a = s.escrowAccess a) ∧
    (revoke_access s caller d1).tokenToOwner = s.tokenToOwner ∧
    (revoke_access s caller d1).supplyCounter = s.supplyCounter := by
  refine ⟨rfl, by simp [revoke_access], ?_, rfl, rfl⟩
  intro a ha
  simp [revoke_access, ha]

/-- Witness for C10: alice revoking with argument bob or carol yields the
same state, her escrow record is gone, and bob's is untouched. -/
theorem revoke_access_ignores_argument_witness :
    revoke_access nftW "alice" "bob" = revoke_access nftW "alice" "carol" ∧
    (revoke_access nftW "alice" "bob").escrowAccess "alice" = none ∧
    (revoke_access nftW "alice" "bob").escrowAccess "bob" = nftW.escrowAccess "bob" :=
  ⟨(revoke_access_ignores_argument nftW "alice" "bob" "carol").1,
   (revoke_access_ignores_argument nftW "alice" "bob" "carol").2.1,
   (revoke_access_ignores_argument nftW "alice" "bob" "carol").2.2.1 "bob" (by decide)⟩

end NFT
